import Mathlib

/-!
Verification development for the remote-snapshotter repository.

The development shallowly embeds two parts of the code base:

* the snapshotter state machine (`Prepare`, `Commit`, `Mounts`, `Usage`,
  `prepareRemoteSnapshot`, `checkAvailability`) from the `snapshot` package;
* the stargz FUSE layer (`Check`, `OpenDir`, `Lookup`, `Access`, `GetXAttr`,
  `ListXAttr`, the state file and `resolve`) from the `stargz` package.

External collaborators (the containerd metadata storage layer, filesystem
plugins, HTTP transports, compiled regular expressions, the disk-usage
scanner) are modelled as explicit parameters or as small state-passing
functions whose contracts follow the spec's data model, exactly as the code
consumes them.  Machine integers are modelled as `Nat`/`Int`, durations and
clock readings as integral seconds, and Go's `float64` percentage as `Rat`.
-/

/-! ## Shared helpers: Go map lookup/assignment over association lists,
and Go's `strconv.ParseInt(s, 10, 64)`. -/

def emptyStr : String := ""

def colonSep : String := ":"

/-- Go map read (`m[k]`) over an association list: first binding wins. -/
def lookupStr : List (String × String) → String → Option String
  | [], _ => none
  | (a, b) :: rest, k => if a = k then some b else lookupStr rest k

/-- Go map write (`m[k] = v`) over an association list. -/
def setStr : List (String × String) → String → String → List (String × String)
  | [], k, v => [(k, v)]
  | (a, b) :: rest, k, v => if a = k then (k, v) :: rest else (a, b) :: setStr rest k v

/-- Accumulate a decimal digit string; `none` on any non-digit. -/
def digitsValAux : Nat → List Char → Option Nat
  | n, [] => some n
  | n, c :: rest =>
    if c.isDigit then digitsValAux (n * 10 + (c.toNat - 48)) rest else none

/-- Go `strconv.ParseInt(s, 10, 64)`: optional sign, at least one decimal
digit, result within the signed 64-bit range; `none` models a non-nil error. -/
def parseInt64 (s : String) : Option Int :=
  let run : Int → List Char → Option Int := fun sign cs =>
    match cs with
    | [] => none
    | _ :: _ =>
      match digitsValAux 0 cs with
      | none => none
      | some n =>
        let v : Int := sign * (n : Int)
        if -(2 ^ 63) ≤ v ∧ v < 2 ^ 63 then some v else none
  match s.data with
  | '-' :: rest => run (-1) rest
  | '+' :: rest => run 1 rest
  | cs => run 1 cs

/-! ## Snapshotter data model

The snapshot records live in containerd's transactional metadata store
(`snapshots/storage`), an external library.  Modelled from the spec:
"Snapshot record. Maintained in a local transactional key-value store:
`{id, kind ∈ {Active, View, Committed}, key, parent key, parentIDs[],
labels}`" (spec §3); `storage.GetInfo`, `storage.CreateSnapshot` and
`storage.CommitActive` are modelled below on top of this record type. -/

def targetSnapshotLabel : String := "containerd.io/snapshot.ref"

def filesystemIDLabel : String := "containerd.io/snapshot/filesystem.id"

inductive SnapKind where
  | view
  | active
  | committed
deriving DecidableEq

structure SnapRecord where
  id : String
  kind : SnapKind
  parent : String
  parentIds : List String
  labels : List (String × String)
  usage : Int
deriving DecidableEq

/-- The metadata store: key ↦ snapshot record. -/
abbrev Store := List (String × SnapRecord)

/-- Modelled from the spec: `storage.GetInfo` — look the key up in the
metadata store (first binding wins, bindings are kept unique). -/
def getInfo : Store → String → Option SnapRecord
  | [], _ => none
  | (a, r) :: rest, k => if a = k then some r else getInfo rest k

/-- Drop every binding of a key from the store. -/
def eraseKey (st : Store) (k : String) : Store :=
  st.filter (fun p => p.1 != k)

/-- A remote-filesystem plugin, as the snapshotter consumes it
(`filesystems.FileSystem`): `Mount` and `Check` are external effects,
modelled as boolean-valued oracles (`true` = nil error). -/
structure FSPlugin where
  mount : String → List (String × String) → Bool
  check : String → Bool

/-- The snapshotter (`snapshotter` struct): root directory and the ordered
filesystem plugin chain. -/
structure Snapshotter where
  root : String
  fsChain : List FSPlugin

def upperPath (o : Snapshotter) (id : String) : String :=
  o.root ++ "/snapshots/" ++ id ++ "/fs"

def workPath (o : Snapshotter) (id : String) : String :=
  o.root ++ "/snapshots/" ++ id ++ "/work"

inductive SnapErr where
  | alreadyExists (target : String)
  | unavailable
  | notFound
  | mountFailed
  | other
deriving DecidableEq

structure Mount where
  mtype : String
  source : String
  options : List String
deriving DecidableEq

/-- The snapshot value handed back by `storage.CreateSnapshot`
(`storage.Snapshot`): id, kind and the resolved parent-ID chain. -/
structure Snapshot where
  id : String
  kind : SnapKind
  parentIds : List String
deriving DecidableEq

/-- `snapshotter.checkAvailability` (part_001, lines 825..877): walk the
parent chain, treating a layer without the `filesystem.id` label as a
normal overlayfs layer; otherwise parse the label, bound-check the plugin
index and run that plugin's `Check` on the layer's mountpoint.  The Go
recursion on `info.Parent` is given explicit fuel. -/
def layerCheck (o : Snapshotter) (info : SnapRecord) : Bool :=
  match lookupStr info.labels filesystemIDLabel with
  | none => true
  | some l =>
    match parseInt64 l with
    | none => false
    | some fsid =>
      if fsid < 0 ∨ (o.fsChain.length : Int) ≤ fsid then false
      else
        match o.fsChain.get? fsid.toNat with
        | none => false
        | some f => f.check (upperPath o info.id)

def checkAvailability (o : Snapshotter) (st : Store) : Nat → String → Bool
  | 0, _ => false
  | fuel + 1, key =>
    match getInfo st key with
    | none => false
    | some info =>
      if info.parent ≠ "" ∧ checkAvailability o st fuel info.parent = false then false
      else layerCheck o info

/-- `snapshotter.mounts` (part_001, lines 726..785): availability gate,
then bind / overlay mount construction. -/
def mounts (o : Snapshotter) (st : Store) (fuel : Nat) (s : Snapshot)
    (checkKey : String) : Except SnapErr (List Mount) :=
  if checkKey ≠ "" ∧ checkAvailability o st fuel checkKey = false then
    .error .unavailable
  else if s.parentIds.length = 0 then
    .ok [⟨"bind", upperPath o s.id,
          [if s.kind = .view then "ro" else "rw", "rbind"]⟩]
  else
    let options : List String :=
      if s.kind = .active then
        ["workdir=" ++ workPath o s.id, "upperdir=" ++ upperPath o s.id]
      else []
    if s.kind ≠ .active ∧ s.parentIds.length = 1 then
      .ok [⟨"bind", upperPath o (s.parentIds.headD emptyStr), ["ro", "rbind"]⟩]
    else
      .ok [⟨"overlay", "overlay",
            options ++
              ["lowerdir=" ++ String.intercalate colonSep (s.parentIds.map (upperPath o))]⟩]

/-- Modelled from the spec: `storage.CreateSnapshot` — fail if the key is
taken or the parent is missing / not Committed; otherwise store an
`Active`/`View` record whose `parentIDs` chain extends the parent's.
`snapshotter.createSnapshot` (part_001, lines 632..705) then returns the
mounts of the new snapshot (directory scaffolding elided). -/
def parentIdsOf (st : Store) (parent : String) : Option (List String) :=
  if parent = "" then some []
  else
    match getInfo st parent with
    | some p => if p.kind = .committed then some (p.id :: p.parentIds) else none
    | none => none

def createSnapshot (o : Snapshotter) (st : Store) (kind : SnapKind)
    (key parent : String) (labels : List (String × String)) (newId : String)
    (fuel : Nat) : Except SnapErr (Store × Snapshot × List Mount) :=
  if (getInfo st key).isSome then .error .other
  else
    match parentIdsOf st parent with
    | none => .error .notFound
    | some pids =>
      match mounts o ((key, ⟨newId, kind, parent, pids, labels, 0⟩) :: st) fuel
          ⟨newId, kind, pids⟩ parent with
      | .error e => .error e
      | .ok m => .ok ((key, ⟨newId, kind, parent, pids, labels, 0⟩) :: st,
                      ⟨newId, kind, pids⟩, m)

/-- Modelled from the spec: `storage.CommitActive` — the record under `key`
must be Active and `name` must be free; the record is re-keyed under `name`
with kind Committed, the computed usage and the supplied labels. -/
def commitActive (st : Store) (key name : String) (u : Int)
    (newLabels : List (String × String)) : Except SnapErr Store :=
  match getInfo st key with
  | none => .error .notFound
  | some r =>
    if r.kind ≠ .active then .error .other
    else if (getInfo st name).isSome then .error .other
    else .ok ((name, { r with kind := .committed, usage := u, labels := newLabels }) ::
              eraseKey st key)

/-- `snapshotter.Commit` (part_001, lines 470..503): read the record, scan
disk usage of the upper directory only when the remote-snapshot target
label is absent, then commit via `CommitActive`.  `diskUsage` is the
external `fs.DiskUsage` scanner (`none` = error); the final `WithLabels`
opt of the caller is modelled as the label map it installs. -/
def commit (o : Snapshotter) (st : Store) (diskUsage : String → Option Int)
    (name key : String) (newLabels : List (String × String)) :
    Except SnapErr Store :=
  match getInfo st key with
  | none => .error .notFound
  | some info =>
    match (if (lookupStr info.labels targetSnapshotLabel).isSome then some 0
           else diskUsage (upperPath o info.id) : Option Int) with
    | none => .error .other
    | some u => commitActive st key name u newLabels

/-- Index of the first plugin whose `Mount` succeeds, scanning the chain in
priority order (the `for fsid, f := range o.fsChain` loop). -/
def firstMountIdx : List FSPlugin → String → List (String × String) → Option Nat
  | [], _, _ => none
  | f :: rest, mp, ls =>
    if f.mount mp ls then some 0 else (firstMountIdx rest mp ls).map (· + 1)

/-- `snapshotter.prepareRemoteSnapshot` (part_001, lines 800..821): look up
the snapshot's id and return the index of the first filesystem plugin that
mounts the layer onto the snapshot's `fs` directory. -/
def prepareRemoteSnapshot (o : Snapshotter) (st : Store) (key : String)
    (labels : List (String × String)) : Except SnapErr Nat :=
  match getInfo st key with
  | none => .error .notFound
  | some info =>
    match firstMountIdx o.fsChain (upperPath o info.id) labels with
    | some i => .ok i
    | none => .error .mountFailed

/-- `snapshotter.Prepare` (part_001, lines 417..447).  The caller's opts are
modelled as the label map they produce (`base.Labels`).  Returns the final
store together with the mounts / error pair Go returns. -/
def prepare (o : Snapshotter) (st : Store) (key parent : String)
    (labels : List (String × String)) (newId : String)
    (diskUsage : String → Option Int) (fuel : Nat) :
    Store × Except SnapErr (List Mount) :=
  match createSnapshot o st .active key parent labels newId fuel with
  | .error e => (st, .error e)
  | .ok (st₁, _s, m) =>
    match lookupStr labels targetSnapshotLabel with
    | none => (st₁, .ok m)
    | some target =>
      match prepareRemoteSnapshot o st₁ key labels with
      | .error _ => (st₁, .ok m)
      | .ok fsid =>
        let labels' := setStr labels filesystemIDLabel (toString fsid)
        match commit o st₁ diskUsage target key labels' with
        | .error _ => (st₁, .ok m)
        | .ok st₂ => (st₂, .error (.alreadyExists target))

/-- `snapshotter.Usage` (part_001, lines 390..415): scan the upper
directory for Active snapshots, otherwise return the stored usage. -/
def usageOf (o : Snapshotter) (st : Store) (diskUsage : String → Option Int)
    (key : String) : Except SnapErr Int :=
  match getInfo st key with
  | none => .error .notFound
  | some info =>
    if info.kind = .active then
      match diskUsage (upperPath o info.id) with
      | none => .error .other
      | some du => .ok du
    else .ok info.usage

/-! Spec-side definitions for claim C2, following the claim's words:
the chain of records from `key` up through its parents, and per-layer
availability ("no `filesystem.id` label, or the label parses to an
in-bounds plugin index whose `Check` succeeds"). -/

/-- The snapshot chain from `key` up through its parents; `none` when any
metadata lookup fails (or the fuel runs out before the chain ends). -/
def snapChain (st : Store) : Nat → String → Option (List SnapRecord)
  | 0, _ => none
  | fuel + 1, key =>
    match getInfo st key with
    | none => none
    | some info =>
      if info.parent = "" then some [info]
      else
        match snapChain st fuel info.parent with
        | none => none
        | some ch => some (info :: ch)

/-- Claim C2's per-layer condition: either the snapshot has no
`filesystem.id` label, or the label parses to an integer index in bounds
for the plugin chain and that plugin's `Check` on the layer's mountpoint
succeeds. -/
def availSpec (o : Snapshotter) (r : SnapRecord) : Prop :=
  match lookupStr r.labels filesystemIDLabel with
  | none => True
  | some l =>
    ∃ i : Nat, parseInt64 l = some (i : Int) ∧
      ∃ f, o.fsChain.get? i = some f ∧ f.check (upperPath o r.id) = true

/-! ## Stargz FUSE layer (stargz/fs.go)

Constants of the filesystem (fs.go, lines 69..83) and the portable
`os.FileMode` → POSIX mode translation. -/

def prefetchLandmark : String := ".prefetch.landmark"

def whiteoutPre : String := ".wh."

def whOpqDir : String := ".wh..wh..opq"

def opqXattr : String := "trusted.overlay.opaque"

def opqXattrValue : String := "y"

def stateDirName : String := ".stargz-snapshotter"

/-! POSIX file-type and special bits (`syscall.S_IF*`). -/

def sIFIFO : Nat := 0x1000
def sIFCHR : Nat := 0x2000
def sIFDIR : Nat := 0x4000
def sIFBLK : Nat := 0x6000
def sIFREG : Nat := 0x8000
def sIFLNK : Nat := 0xA000
def sIFSOCK : Nat := 0xC000
def sISVTX : Nat := 0x200
def sISGID : Nat := 0x400
def sISUID : Nat := 0x800

/-! Go `os.FileMode` bits. -/

def modeDir : Nat := 2 ^ 31
def modeSymlink : Nat := 2 ^ 27
def modeDevice : Nat := 2 ^ 26
def modeNamedPipe : Nat := 2 ^ 25
def modeSocket : Nat := 2 ^ 24
def modeSetuid : Nat := 2 ^ 23
def modeSetgid : Nat := 2 ^ 22
def modeCharDevice : Nat := 2 ^ 21
def modeSticky : Nat := 2 ^ 20
def modeIrregular : Nat := 2 ^ 19

def modeType : Nat :=
  modeDir ||| modeSymlink ||| modeNamedPipe ||| modeSocket ||| modeDevice |||
    modeCharDevice ||| modeIrregular

/-- `fileModeToSystemMode` (fs.go, lines 963..992): translate Go's portable
`os.FileMode` to the system's native bitmap. -/
def fileModeToSystemMode (m : Nat) : Nat :=
  let sm := m &&& 0o777
  let t := m &&& modeType
  let sm :=
    if t = modeDevice then sm ||| sIFBLK
    else if t = modeDevice ||| modeCharDevice then sm ||| sIFCHR
    else if t = modeDir then sm ||| sIFDIR
    else if t = modeNamedPipe then sm ||| sIFIFO
    else if t = modeSymlink then sm ||| sIFLNK
    else if t = modeSocket then sm ||| sIFSOCK
    else sm ||| sIFREG
  let sm := if m &&& modeSetgid ≠ 0 then sm ||| sISGID else sm
  let sm := if m &&& modeSetuid ≠ 0 then sm ||| sISUID else sm
  if m &&& modeSticky ≠ 0 then sm ||| sISVTX else sm

/-- A stargz TOC entry as the FUSE layer consumes it: base name, portable
mode bits, owner, xattrs and the children map (modelled as a list in
iteration order; the listing below sorts its output, as the code does). -/
inductive Toc where
  | mk (name : String) (mode : Nat) (uid : Nat) (gid : Nat)
       (xattrs : List (String × String)) (children : List (String × Toc))

def Toc.name : Toc → String
  | .mk n _ _ _ _ _ => n

def Toc.mode : Toc → Nat
  | .mk _ m _ _ _ _ => m

def Toc.uid : Toc → Nat
  | .mk _ _ u _ _ _ => u

def Toc.gid : Toc → Nat
  | .mk _ _ _ g _ _ => g

def Toc.xattrs : Toc → List (String × String)
  | .mk _ _ _ _ xs _ => xs

def Toc.children : Toc → List (String × Toc)
  | .mk _ _ _ _ _ cs => cs

/-- `TOCEntry.LookupChild`: look a child up by base name. -/
def Toc.lookupChild (t : Toc) (name : String) : Option Toc :=
  (t.children.find? (fun p => p.1 == name)).map (·.2)

/-- `strings.HasPrefix`, on the character representation (kernel-reducible,
equivalent to Go's byte test for these names). -/
def strStartsWith (s pre : String) : Bool :=
  pre.data.isPrefixOf s.data

/-- The Go slice `s[n:]`, on the character representation. -/
def strDrop (s : String) (n : Nat) : String :=
  String.mk (s.data.drop n)

/-- A directory entry as returned to FUSE.  The pointer-derived inode
number of the source is outside the embedding and is omitted. -/
structure DirEnt where
  mode : Nat
  name : String
deriving DecidableEq

/-- Lexicographic order on names (Go's `<` over strings), written over the
character representation so the kernel can evaluate it. -/
def charListLt : List Char → List Char → Bool
  | [], [] => false
  | [], _ :: _ => true
  | _ :: _, [] => false
  | a :: as, b :: bs =>
    if a.toNat < b.toNat then true
    else if b.toNat < a.toNat then false
    else charListLt as bs

def strLt (a b : String) : Bool := charListLt a.data b.data

def insertEnt (e : DirEnt) : List DirEnt → List DirEnt
  | [] => [e]
  | x :: xs => if strLt e.name x.name then e :: x :: xs else x :: insertEnt e xs

/-- The final `sort.Slice(ents, …Name < …Name)` of `OpenDir`. -/
def sortEnts : List DirEnt → List DirEnt
  | [] => []
  | x :: xs => insertEnt x (sortEnts xs)

/-- The state-directory entry appended at the root
(`S_IFDIR | s.mode()`, name `.stargz-snapshotter`). -/
def stateDirEnt : DirEnt := ⟨sIFDIR ||| 0o500, stateDirName⟩

/-- One iteration of the `ForeachChild` callback of `node.OpenDir`
(fs.go, lines 479..504): skip the landmark at the root, set whiteouts
aside, record normal entries and their names. -/
def openDirStep (isRoot : Bool)
    (acc : List DirEnt × List (String × Toc) × List String)
    (bc : String × Toc) : List DirEnt × List (String × Toc) × List String :=
  if isRoot = true ∧ bc.1 = prefetchLandmark then acc
  else if strStartsWith bc.1 whiteoutPre then
    if bc.1 = whOpqDir then acc
    else (acc.1, acc.2.1 ++ [bc], acc.2.2)
  else
    (acc.1 ++ [⟨fileModeToSystemMode bc.2.mode, bc.1⟩], acc.2.1,
     acc.2.2 ++ [bc.1])

/-- The `ForeachChild` loop of `node.OpenDir` (fs.go, lines 475..504):
collect normal entries, hidden whiteouts, and the set of normal names. -/
def openDirCore (isRoot : Bool) (children : List (String × Toc)) :
    List DirEnt × List (String × Toc) × List String :=
  children.foldl (openDirStep isRoot) ([], [], [])

/-- `node.OpenDir` (fs.go, lines 475..529): filter the children, append
overlayfs-compliant whiteouts not replaced by a normal entry, append the
state directory at the root, and sort by name. -/
def openDir (isRoot : Bool) (children : List (String × Toc)) : List DirEnt :=
  let c := openDirCore isRoot children
  let ents := c.1 ++ c.2.1.filterMap (fun w =>
    let x := strDrop w.1 whiteoutPre.length
    if c.2.2.contains x then none else some ⟨sIFCHR, x⟩)
  let ents := if isRoot then ents ++ [stateDirEnt] else ents
  sortEnts ents

/-! Spec-side listing pipelines for claim C5.  `specOpenDirClaim` reads the
claim literally: a synthetic whiteout entry is emitted when *no sibling*
named `X` exists among the TOC children.  `specOpenDirAmended` replaces
that test by "no sibling listed as a normal entry named `X`". -/

def normalSel (isRoot : Bool) (bc : String × Toc) : Option DirEnt :=
  if isRoot = true ∧ bc.1 = prefetchLandmark then none
  else if strStartsWith bc.1 whiteoutPre then none
  else some ⟨fileModeToSystemMode bc.2.mode, bc.1⟩

def normalNameSel (isRoot : Bool) (bc : String × Toc) : Option String :=
  if isRoot = true ∧ bc.1 = prefetchLandmark then none
  else if strStartsWith bc.1 whiteoutPre then none
  else some bc.1

def whSel (isRoot : Bool) (bc : String × Toc) : Option (String × Toc) :=
  if isRoot = true ∧ bc.1 = prefetchLandmark then none
  else if strStartsWith bc.1 whiteoutPre then
    if bc.1 = whOpqDir then none else some bc
  else none

def specOpenDirClaim (isRoot : Bool) (children : List (String × Toc)) :
    List DirEnt :=
  let siblings := children.map (·.1)
  let normals := children.filterMap (normalSel isRoot)
  let synth := (children.filterMap (whSel isRoot)).filterMap (fun w =>
    let x := strDrop w.1 whiteoutPre.length
    if siblings.contains x then none else some ⟨sIFCHR, x⟩)
  let st := if isRoot then [stateDirEnt] else []
  sortEnts (normals ++ synth ++ st)

def specOpenDirAmended (isRoot : Bool) (children : List (String × Toc)) :
    List DirEnt :=
  let normalNames := children.filterMap (normalNameSel isRoot)
  let normals := children.filterMap (normalSel isRoot)
  let synth := (children.filterMap (whSel isRoot)).filterMap (fun w =>
    let x := strDrop w.1 whiteoutPre.length
    if normalNames.contains x then none else some ⟨sIFCHR, x⟩)
  let st := if isRoot then [stateDirEnt] else []
  sortEnts (normals ++ synth ++ st)

/-! Inodes of the FUSE tree (claim C7): a node records its TOC entry and
the opaque-directory flag.  The flag is set only by `Lookup` when it
materializes a child; the root node built at mount time leaves it false. -/

structure FNode where
  e : Toc
  opq : Bool

/-- Whether the entry has a child named `.wh..wh..opq`. -/
def hasOpqChild (t : Toc) : Bool :=
  (t.lookupChild whOpqDir).isSome

/-- The root node built by `Mount` (fs.go, lines 260..267): the
opaque flag is never set there. -/
def rootNode (t : Toc) : FNode := ⟨t, false⟩

inductive LookupRes where
  | enoent
  | stateNode
  | whNode (oe : Toc)
  | childNode (n : FNode)

/-- `node.Lookup` (fs.go, lines 531..581), kernel-cache branch elided:
hide the landmark at the root and every `.wh.`-name, resolve the state
directory at the root, materialize a child with its opaque flag, or fall
back to the overlayfs whiteout node. -/
def lookupNode (n : FNode) (name : String) : LookupRes :=
  if n.e.name = "" ∧ name = prefetchLandmark then .enoent
  else if strStartsWith name whiteoutPre then .enoent
  else if n.e.name = "" ∧ name = stateDirName then .stateNode
  else
    match n.e.lookupChild name with
    | some ce => .childNode ⟨ce, hasOpqChild ce⟩
    | none =>
      match n.e.lookupChild (whiteoutPre ++ name) with
      | some wh => .whNode wh
      | none => .enoent

/-- `node.GetXAttr` (fs.go, lines 626..635): the synthesized opaque
indicator, then pass-through to the TOC xattrs (`none` = ENOATTR). -/
def getXAttr (n : FNode) (attr : String) : Option String :=
  if attr = opqXattr ∧ n.opq = true then some opqXattrValue
  else lookupStr n.e.xattrs attr

/-- `node.ListXAttr` (fs.go, lines 637..646). -/
def listXAttr (n : FNode) : List String :=
  (if n.opq = true then [opqXattr] else []) ++ n.e.xattrs.map (·.1)

/-! Permission checks (claim C6). -/

inductive FStatus where
  | ok
  | eperm
deriving DecidableEq

/-- The shift selecting the permission field: owner 6, group 3, other 0. -/
def accessShift (e : Toc) (uid gid : Nat) : Nat :=
  if e.uid = uid then 6 else if e.gid = gid then 3 else 0

/-- `node.Access` (fs.go, lines 583..606). -/
def nodeAccess (e : Toc) (uid gid mode : Nat) : FStatus :=
  if uid = 0 then .ok
  else if mode = 0 then .ok
  else if (mode <<< accessShift e uid gid) &&& fileModeToSystemMode e.mode ≠ 0 then .ok
  else .eperm

def stateModeBits : Nat := 0o500

def statFileModeBits : Nat := 0o400

/-- `state.Access` (fs.go, lines 752..764).  Go parses
`mode&s.mode()>>6` as `(mode & s.mode()) >> 6` (both operators share a
precedence level, left associative). -/
def stateAccess (uid mode : Nat) : FStatus :=
  if mode = 0 then .ok
  else if uid = 0 ∧ ((mode &&& stateModeBits) >>> 6) ≠ 0 then .ok
  else .eperm

/-- `statFile.Access` (fs.go, lines 839..850), same shape over `0400`. -/
def statFileAccess (uid mode : Nat) : FStatus :=
  if mode = 0 then .ok
  else if uid = 0 ∧ ((mode &&& statFileModeBits) >>> 6) ≠ 0 then .ok
  else .eperm

/-! Layer liveness check (claim C4). -/

/-- The interval computation of `NewFilesystem` (fs.go, lines 119..127):
`0` means the 60-second default, negative means check every time. -/
def computeInterval (cfg : Int) : Int :=
  if cfg = 0 then 60 else if cfg < 0 then 0 else cfg

structure Conn where
  url : String
  lastCheck : Int
deriving DecidableEq

structure HTTPReq where
  method : String
  url : String
  rangeHeader : String
  timeoutSec : Nat
deriving DecidableEq

def getMethod : String := "GET"

def rangeFirstTwo : String := "bytes=0-1"

/-- The probe request `Check` builds: ranged GET, 30-second deadline. -/
def checkReq (url : String) : HTTPReq := ⟨getMethod, url, rangeFirstTwo, 30⟩

inductive CheckRes where
  | ok
  | connMissing
  | reqError
  | badStatus (code : Nat)
deriving DecidableEq

/-- `filesystem.Check` (fs.go, lines 284..334).  Time is in integral
seconds; `conn` is the connection record for the mountpoint; `resp` is the
status the ranged GET would return (`none` = transport error).  The result
carries the outcome, the updated connection record, and the request issued
(`none` when the check was skipped). -/
def checkLayer (interval : Int) (conn : Option Conn) (now : Int)
    (resp : Option Nat) : CheckRes × Option Conn × Option HTTPReq :=
  match conn with
  | none => (.connMissing, none, none)
  | some c =>
    if now - c.lastCheck < interval then (.ok, some c, none)
    else
      let c' : Conn := { c with lastCheck := now }
      match resp with
      | none => (.reqError, some c', some (checkReq c.url))
      | some code =>
        if code = 200 ∨ code = 206 then (.ok, some c', some (checkReq c.url))
        else (.badStatus code, some c', some (checkReq c.url))

/-! Reference resolution (claim C8). -/

/-- `filesystem.isInsecure` (fs.go, lines 339..347): the configured
insecure-registry regular expressions are modelled as their compiled
match functions. -/
def isInsecure (matchers : List (String → Bool)) (host : String) : Bool :=
  matchers.any (fun m => m host)

def dockerIOHost : String := "docker.io"

def registry1Host : String := "registry-1.docker.io"

def httpScheme : String := "http"

def httpsScheme : String := "https"

/-- The URL-construction core of `filesystem.resolve` (fs.go, lines
360..373), after `docker.ParseDockerRef` has split the reference into
domain and path: substitute the default-index alias, pick the scheme, and
build the blob URL. -/
def resolveURL (matchers : List (String → Bool)) (domain path digest : String) :
    String :=
  let host := if domain = dockerIOHost then registry1Host else domain
  let scheme := if isInsecure matchers host then httpScheme else httpsScheme
  scheme ++ "://" ++ host ++ "/v2/" ++ path ++ "/blobs/" ++ digest

/-! The state file (claim C9).  Go's `float64` percentage is modelled as
`Rat`; the JSON rendering keeps `json.Marshal`'s struct-field order with
`omitempty` on `error`. -/

structure StatJSON where
  error : String
  digest : String
  size : Int
  fetchedSize : Int
  fetchedPercent : Rat
deriving DecidableEq

inductive JVal where
  | s (v : String)
  | i (v : Int)
  | q (v : Rat)
deriving DecidableEq

def errorKey : String := "error"

def digestKey : String := "digest"

def sizeKey : String := "size"

def fetchedSizeKey : String := "fetchedSize"

def fetchedPercentKey : String := "fetchedPercent"

/-- The serialized fields of `statJSON` (fs.go, lines 801..808), in
`json.Marshal` struct order, with `error` omitted when empty. -/
def statFields (e : StatJSON) : List (String × JVal) :=
  (if e.error = "" then [] else [(errorKey, .s e.error)]) ++
  [(digestKey, .s e.digest), (sizeKey, .i e.size),
   (fetchedSizeKey, .i e.fetchedSize), (fetchedPercentKey, .q e.fetchedPercent)]

def quoteStr : String := "\""

def commaSep : String := ","

def renderJVal : JVal → String
  | .s v => quoteStr ++ v ++ quoteStr
  | .i v => toString v
  | .q v => toString v

def renderField (p : String × JVal) : String :=
  quoteStr ++ p.1 ++ quoteStr ++ colonSep ++ renderJVal p.2

def renderJSON (fs : List (String × JVal)) : String :=
  "\x7b" ++ String.intercalate commaSep (fs.map renderField) ++ "\x7d"

def newlineStr : String := "\n"

/-- `statFile.report` (fs.go, lines 822..826). -/
def report (e : StatJSON) (msg : String) : StatJSON := { e with error := msg }

/-- `statFile.updateStatUnlocked` (fs.go, lines 828..837): re-read the
fetched-bytes counter, recompute the percentage, marshal, append a
newline. -/
def updateStatUnlocked (e : StatJSON) (fetched : Int) : StatJSON × String :=
  let e' := { e with fetchedSize := fetched,
                     fetchedPercent := (fetched : Rat) / (e.size : Rat) * 100 }
  (e', renderJSON (statFields e') ++ newlineStr)

def strWindow (s : String) (off len : Nat) : String :=
  String.mk ((s.data.drop off).take len)

/-- `statFile.Read` (fs.go, lines 856..868): serialize freshly, then hand
out the requested window of the bytes. -/
def statFileRead (e : StatJSON) (fetched : Int) (off destLen : Nat) :
    StatJSON × String :=
  let r := updateStatUnlocked e fetched
  (r.1, strWindow r.2 off destLen)

/-! ## Concrete fixtures used by witnesses and counterexamples. -/

def rootW : String := "/r"

def plugOk : FSPlugin := ⟨fun _ _ => true, fun _ => true⟩

def plugFail : FSPlugin := ⟨fun _ _ => false, fun _ => false⟩

def oW : Snapshotter := ⟨rootW, [plugOk]⟩

def oFailW : Snapshotter := ⟨rootW, [plugFail]⟩

def keyW : String := "k1"

def targetW : String := "c1"

def newIdW : String := "1"

def labelsW : List (String × String) := [(targetSnapshotLabel, targetW)]

def dUW : String → Option Int := fun _ => some 7

def stW1 : Store := [(keyW, ⟨newIdW, .active, emptyStr, [], labelsW, 0⟩)]

def sW : Snapshot := ⟨newIdW, .active, []⟩

def mWit : List Mount := [⟨"bind", upperPath oW newIdW, ["rw", "rbind"]⟩]

def labelsW2 : List (String × String) :=
  setStr labelsW filesystemIDLabel (toString (0 : Nat))

def stW2 : Store := [(targetW, ⟨newIdW, .committed, emptyStr, [], labelsW2, 0⟩)]

def badVal : String := "x"

def kBad : String := "kb"

def recBad : SnapRecord :=
  ⟨newIdW, .committed, emptyStr, [], [(filesystemIDLabel, badVal)], 0⟩

def stBad : Store := [(kBad, recBad)]

def recAct : SnapRecord := ⟨newIdW, .active, emptyStr, [], [], 3⟩

def stAct : Store := [(keyW, recAct)]

def urlW : String := "u"

def dummyToc : Toc := .mk badVal 0 0 0 [] []

def cexKids : List (String × Toc) :=
  [(".wh..wh.foo", dummyToc), (".wh.foo", dummyToc)]

def fNameW : String := "f"

def tocAcc : Toc := .mk fNameW 0o644 1000 1000 [] []

def tocOpqRootW : Toc := .mk emptyStr 0 0 0 [] [(whOpqDir, dummyToc)]

def dNameW : String := "d"

def pNameW : String := "p"

def tocDW : Toc := .mk dNameW modeDir 0 0 [] [(whOpqDir, dummyToc)]

def tocPW : Toc := .mk pNameW modeDir 0 0 [] [(dNameW, tocDW)]

def dNodeW : FNode := ⟨tocDW, true⟩

def pathW : String := "library/alpine"

def digW : String := "sha256:d"

def eW : StatJSON := ⟨emptyStr, digW, 200, 0, 0⟩

/-! ## Theorems -/

/-! Bitwise helpers for the permission-field characterization. -/

theorem ne_zero_iff_exists_testBit (n : Nat) :
    n ≠ 0 ↔ ∃ i, n.testBit i = true := by
  constructor
  · intro h
    by_contra hc
    push_neg at hc
    refine h (Nat.eq_of_testBit_eq fun i => ?_)
    rw [Nat.zero_testBit]
    exact Bool.eq_false_iff.mpr (hc i)
  · rintro ⟨i, hi⟩ h0
    subst h0
    simp [Nat.zero_testBit] at hi

theorem land_ne_zero_iff (a b : Nat) :
    a &&& b ≠ 0 ↔ ∃ i, a.testBit i = true ∧ b.testBit i = true := by
  rw [ne_zero_iff_exists_testBit]
  constructor
  · rintro ⟨i, hi⟩
    rw [Nat.testBit_land] at hi
    exact ⟨i, by simpa using hi⟩
  · rintro ⟨i, ha, hb⟩
    refine ⟨i, ?_⟩
    rw [Nat.testBit_land, ha, hb]
    rfl

/-- Requesting bits `mode < 8` against a full mode word `M` shifted by `s`
is the same as requesting them against the 3-bit field of `M` at `s`. -/
theorem shift_field_iff (mode M s : Nat) (hm : mode < 8) :
    (mode <<< s) &&& M ≠ 0 ↔ mode &&& ((M >>> s) &&& 7) ≠ 0 := by
  rw [land_ne_zero_iff, land_ne_zero_iff]
  constructor
  · rintro ⟨i, hi, hMi⟩
    rw [Nat.testBit_shiftLeft] at hi
    obtain ⟨hsle, hmi⟩ : (decide (s ≤ i)) = true ∧ mode.testBit (i - s) = true := by
      simpa using hi
    have hsle' : s ≤ i := of_decide_eq_true hsle
    refine ⟨i - s, hmi, ?_⟩
    rw [Nat.testBit_land, Nat.testBit_shiftRight]
    have h1 : s + (i - s) = i := by omega
    rw [h1, hMi]
    have hlt : i - s < 3 := by
      by_contra hge
      push_neg at hge
      have h8 : (8 : Nat) ≤ 2 ^ (i - s) := by
        calc (8 : Nat) = 2 ^ 3 := by norm_num
        _ ≤ 2 ^ (i - s) := Nat.pow_le_pow_right (by norm_num) hge
      have : mode.testBit (i - s) = false :=
        Nat.testBit_lt_two_pow (lt_of_lt_of_le hm h8)
      rw [this] at hmi
      exact Bool.false_ne_true hmi
    have h7 : Nat.testBit 7 (i - s) = true := by
      set j := i - s with hj
      interval_cases j <;> decide
    rw [h7]
    rfl
  · rintro ⟨j, hj, hrest⟩
    rw [Nat.testBit_land, Nat.testBit_shiftRight] at hrest
    obtain ⟨hMj, h7⟩ : M.testBit (s + j) = true ∧ Nat.testBit 7 j = true := by
      simpa using hrest
    refine ⟨s + j, ?_, hMj⟩
    rw [Nat.testBit_shiftLeft]
    have h1 : s + j - s = j := by omega
    rw [h1, hj]
    simp

/-- C6: for every node, `Access(mode, caller)`: a caller with uid 0 is
unconditionally granted on TOC-backed nodes; a request with `mode = 0`
always succeeds for any caller on any node (TOC node, state directory,
state file); otherwise the requested mode is compared against the 3-bit
field of the entry mode selected by uid/gid match (owner shift 6, group
shift 3, other shift 0), and EPERM is returned on mismatch (no overlap). -/
theorem access_semantics :
    (∀ e gid mode, nodeAccess e 0 gid mode = .ok) ∧
    (∀ e uid gid, nodeAccess e uid gid 0 = .ok) ∧
    (∀ uid, stateAccess uid 0 = .ok ∧ statFileAccess uid 0 = .ok) ∧
    (∀ e uid gid mode, uid ≠ 0 → mode ≠ 0 → mode < 8 →
      (nodeAccess e uid gid mode = .ok ↔
        mode &&& ((fileModeToSystemMode e.mode >>> accessShift e uid gid) &&& 7) ≠ 0)) := by
  refine ⟨?_, ?_, ?_, ?_⟩
  · intro e gid mode
    simp [nodeAccess]
  · intro e uid gid
    simp [nodeAccess]
  · intro uid
    exact ⟨by simp [stateAccess], by simp [statFileAccess]⟩
  · intro e uid gid mode hu hm h8
    rw [← shift_field_iff mode (fileModeToSystemMode e.mode) (accessShift e uid gid) h8]
    by_cases hc : (mode <<< accessShift e uid gid) &&& fileModeToSystemMode e.mode ≠ 0
    · simp [nodeAccess, hu, hm, hc]
    · simp [nodeAccess, hu, hm, hc]

/-- Witness for C6: a non-root owner requesting read (mode 4) on a
`rw-r--r--` entry, evaluated concretely. -/
theorem access_semantics_witness :
    ((1000 : Nat) ≠ 0 ∧ (4 : Nat) ≠ 0 ∧ (4 : Nat) < 8) ∧
    (nodeAccess tocAcc 1000 1000 4 = .ok ↔
      4 &&& ((fileModeToSystemMode tocAcc.mode >>> accessShift tocAcc 1000 1000) &&& 7) ≠ 0) :=
  ⟨⟨by decide, by decide, by decide⟩,
    access_semantics.2.2.2 tocAcc 1000 1000 4 (by decide) (by decide) (by decide)⟩

/-- C4 counterexample: with `layerValidInterval = 60`, a connection last
checked at time 0, now = 100, and the ranged GET answering 404, `Check`
fails — yet `lastCheck` is still advanced to `now` (the code sets it
before issuing the request), contradicting "updating lastCheck on
success" read as an update conditional on success. -/
theorem check_claim_cex :
    (checkLayer 60 (some ⟨urlW, 0⟩) 100 (some 404)).1 ≠ .ok ∧
    (checkLayer 60 (some ⟨urlW, 0⟩) 100 (some 404)).2.1 ≠ some ⟨urlW, 0⟩ ∧
    (checkLayer 60 (some ⟨urlW, 0⟩) 100 (some 404)).2.1 = some ⟨urlW, 100⟩ := by
  decide

/-- C4 (amended): for `Check` with a registered connection record: if
`now − lastCheck < layerValidInterval`, `Check` succeeds with no network
request and an unchanged record; otherwise it issues a GET with header
`Range: bytes=0-1` against the stored URL under a 30-second deadline,
succeeds iff the status is 200 or 206, and updates `lastCheck` to `now`
before the request is issued, on success and on failure alike; a negative
configured `layer_valid_interval` makes every `Check` hit the network, and
a configured value of 0 uses the 60-second default. -/
theorem check_semantics (interval : Int) (c : Conn) (now : Int) (resp : Option Nat) :
    (now - c.lastCheck < interval →
      checkLayer interval (some c) now resp = (.ok, some c, none)) ∧
    (¬ now - c.lastCheck < interval →
      (checkLayer interval (some c) now resp).2.2 = some (checkReq c.url) ∧
      (checkLayer interval (some c) now resp).2.1 = some ⟨c.url, now⟩ ∧
      ((checkLayer interval (some c) now resp).1 = .ok ↔
        resp = some 200 ∨ resp = some 206)) ∧
    (∀ cfg : Int, cfg < 0 → computeInterval cfg = 0) ∧
    computeInterval 0 = 60 ∧
    (∀ cfg : Int, cfg < 0 → c.lastCheck ≤ now →
      (checkLayer (computeInterval cfg) (some c) now resp).2.2 =
        some (checkReq c.url)) := by
  refine ⟨?_, ?_, ?_, ?_, ?_⟩
  · intro h
    simp [checkLayer, h]
  · intro h
    cases resp with
    | none => refine ⟨?_, ?_, ?_⟩ <;> simp [checkLayer, h]
    | some code =>
      by_cases hc : code = 200 ∨ code = 206
      · refine ⟨?_, ?_, ?_⟩ <;> simp [checkLayer, h, hc]
      · refine ⟨?_, ?_, ?_⟩ <;> simp [checkLayer, h, hc]
  · intro cfg hneg
    have h0 : cfg ≠ 0 := by omega
    simp [computeInterval, h0, hneg]
  · simp [computeInterval]
  · intro cfg hneg hle
    have h0 : cfg ≠ 0 := by omega
    have hci : computeInterval cfg = 0 := by simp [computeInterval, h0, hneg]
    rw [hci]
    have hns : ¬ now - c.lastCheck < 0 := by omega
    cases resp with
    | none => simp [checkLayer, hns]
    | some code =>
      by_cases h200 : code = 200 ∨ code = 206 <;> simp [checkLayer, hns, h200]

/-- Witness for C4 (amended): interval expired, status 206 — the ranged
GET is issued, `lastCheck` is updated, and the check succeeds. -/
theorem check_semantics_witness :
    ¬ (100 : Int) - (0 : Int) < 60 ∧
    ((checkLayer 60 (some ⟨urlW, 0⟩) 100 (some 206)).2.2 = some (checkReq urlW) ∧
      (checkLayer 60 (some ⟨urlW, 0⟩) 100 (some 206)).2.1 = some ⟨urlW, 100⟩ ∧
      ((checkLayer 60 (some ⟨urlW, 0⟩) 100 (some 206)).1 = .ok ↔
        (some 206 : Option Nat) = some 200 ∨ (some 206 : Option Nat) = some 206)) :=
  ⟨by decide, (check_semantics 60 ⟨urlW, 0⟩ 100 (some 206)).2.1 (by decide)⟩

/-- C8: `resolve` maps the default-index host `docker.io` to
`registry-1.docker.io`, chooses scheme `http` iff the (mapped) host
matches some configured insecure-registry expression, and builds the blob
URL `<scheme>://<host>/v2/<path>/blobs/<digest>`. -/
theorem resolve_url_spec (matchers : List (String → Bool)) (domain path digest : String) :
    (domain = dockerIOHost →
      resolveURL matchers domain path digest =
        resolveURL matchers registry1Host path digest) ∧
    (resolveURL matchers domain path digest =
      (if isInsecure matchers (if domain = dockerIOHost then registry1Host else domain)
        then httpScheme else httpsScheme) ++ "://" ++
        (if domain = dockerIOHost then registry1Host else domain) ++
        "/v2/" ++ path ++ "/blobs/" ++ digest) ∧
    (∀ host, isInsecure matchers host = true ↔ ∃ f ∈ matchers, f host = true) := by
  refine ⟨?_, ?_, ?_⟩
  · intro h
    have hne : registry1Host ≠ dockerIOHost := by decide
    simp [resolveURL, h, hne]
  · rfl
  · intro host
    simp [isInsecure, List.any_eq_true]

/-- Witness for C8: the default-index substitution at a concrete
reference. -/
theorem resolve_url_spec_witness :
    dockerIOHost = dockerIOHost ∧
    resolveURL [] dockerIOHost pathW digW = resolveURL [] registry1Host pathW digW :=
  ⟨rfl, (resolve_url_spec [] dockerIOHost pathW digW).1 rfl⟩

/-- C9: every read of the state file re-serializes the JSON object
freshly: the window handed out comes from a fresh render, the render is
the serialized field list plus a trailing newline, `fetchedSize` is
re-read from the counter at that read, `fetchedPercent` equals
`100·fetchedSize/size`, and the field set is
`digest, size, fetchedSize, fetchedPercent`, with `error` prepended
exactly when a nonempty error has been reported. -/
theorem stat_file_read_spec (e : StatJSON) (fetched : Int) (off destLen : Nat) :
    statFileRead e fetched off destLen =
      ((updateStatUnlocked e fetched).1,
        strWindow (updateStatUnlocked e fetched).2 off destLen) ∧
    (updateStatUnlocked e fetched).2 =
      renderJSON (statFields (updateStatUnlocked e fetched).1) ++ newlineStr ∧
    ((updateStatUnlocked e fetched).1).digest = e.digest ∧
    ((updateStatUnlocked e fetched).1).size = e.size ∧
    ((updateStatUnlocked e fetched).1).fetchedSize = fetched ∧
    ((updateStatUnlocked e fetched).1).fetchedPercent =
      100 * (fetched : Rat) / (e.size : Rat) ∧
    (e.error = emptyStr →
      (statFields (updateStatUnlocked e fetched).1).map Prod.fst =
        [digestKey, sizeKey, fetchedSizeKey, fetchedPercentKey]) ∧
    (e.error ≠ emptyStr →
      (statFields (updateStatUnlocked e fetched).1).map Prod.fst =
        [errorKey, digestKey, sizeKey, fetchedSizeKey, fetchedPercentKey]) := by
  refine ⟨rfl, rfl, rfl, rfl, rfl, ?_, ?_, ?_⟩
  · show (fetched : Rat) / (e.size : Rat) * 100 = 100 * (fetched : Rat) / (e.size : Rat)
    ring
  · intro h
    simp only [emptyStr] at h
    simp [statFields, updateStatUnlocked, h]
  · intro h
    simp only [emptyStr] at h
    simp [statFields, updateStatUnlocked, h]

/-- Witness for C9: a mount with no reported error — the field list is
exactly `digest, size, fetchedSize, fetchedPercent`. -/
theorem stat_file_read_spec_witness :
    eW.error = emptyStr ∧
    (statFields (updateStatUnlocked eW 5).1).map Prod.fst =
      [digestKey, sizeKey, fetchedSizeKey, fetchedPercentKey] :=
  ⟨rfl, (stat_file_read_spec eW 5 0 100).2.2.2.2.2.2.1 rfl⟩

/-- C10: `Usage(key)` of a snapshot whose stored kind is Active scans the
recursive disk usage of the snapshot's upper directory
`<root>/snapshots/<id>/fs` — the quantification over arbitrary records
covers snapshots with and without the remote-snapshot target label — and
`Usage` of a snapshot of any other kind returns the stored usage value
unchanged. -/
theorem usage_kind_spec (o : Snapshotter) (st : Store)
    (diskUsage : String → Option Int) (key : String) (info : SnapRecord)
    (h : getInfo st key = some info) :
    (info.kind = .active →
      usageOf o st diskUsage key =
        match diskUsage (o.root ++ "/snapshots/" ++ info.id ++ "/fs") with
        | some du => .ok du
        | none => .error .other) ∧
    (info.kind ≠ .active → usageOf o st diskUsage key = .ok info.usage) := by
  constructor
  · intro hk
    simp only [usageOf, h, hk, upperPath]
    cases diskUsage (o.root ++ "/snapshots/" ++ info.id ++ "/fs") <;> rfl
  · intro hk
    simp [usageOf, h, hk]

/-- Witness for C10: a concrete Active snapshot whose upper-directory scan
returns 7. -/
theorem usage_kind_spec_witness :
    getInfo stAct keyW = some recAct ∧
    recAct.kind = .active ∧
    usageOf oW stAct dUW keyW =
      (match dUW (oW.root ++ "/snapshots/" ++ recAct.id ++ "/fs") with
        | some du => .ok du
        | none => .error .other) :=
  ⟨by decide, rfl, (usage_kind_spec oW stAct dUW keyW recAct (by decide)).1 rfl⟩

/-- Per-layer step of the availability check, characterized by claim C2's
wording. -/
theorem layerCheck_iff (o : Snapshotter) (r : SnapRecord) :
    layerCheck o r = true ↔ availSpec o r := by
  unfold layerCheck availSpec
  cases hl : lookupStr r.labels filesystemIDLabel with
  | none => simp
  | some l =>
    cases hp : parseInt64 l with
    | none => simp [hp]
    | some fsid =>
      simp only [hp]
      by_cases hb : fsid < 0 ∨ (o.fsChain.length : Int) ≤ fsid
      · rw [if_pos hb]
        constructor
        · intro h
          exact absurd h (by simp)
        · rintro ⟨i, hi, f, hf, hc⟩
          exfalso
          have hfi : fsid = (i : Int) := Option.some.inj hi
          rcases hb with hb | hb
          · omega
          · have hlen : o.fsChain.length ≤ i := by omega
            rw [List.get?_eq_none.mpr hlen] at hf
            exact Option.noConfusion hf
      · rw [if_neg hb]
        push_neg at hb
        obtain ⟨hb1, hb2⟩ := hb
        have hlt : fsid.toNat < o.fsChain.length := by omega
        have hf : o.fsChain.get? fsid.toNat = some (o.fsChain.get ⟨fsid.toNat, hlt⟩) :=
          List.get?_eq_get hlt
        rw [hf]
        constructor
        · intro hc
          refine ⟨fsid.toNat, ?_, o.fsChain.get ⟨fsid.toNat, hlt⟩, hf, hc⟩
          rw [Int.toNat_of_nonneg (by omega)]
        · rintro ⟨i, hi, f', hf', hc⟩
          have hfi : fsid = (i : Int) := Option.some.inj hi
          have hieq : i = fsid.toNat := by omega
          rw [hieq, hf] at hf'
          obtain rfl : o.fsChain.get ⟨fsid.toNat, hlt⟩ = f' := Option.some.inj hf'
          simpa using hc

/-- C2: `checkAvailability(key)` returns true iff, for every snapshot on
the chain from `key` up through its parents, the metadata lookup succeeds
and either the snapshot has no `filesystem.id` label (a normal overlay
layer) or the label parses to an integer index in bounds for the plugin
chain whose plugin's `Check` on the layer's mountpoint succeeds; and when
`checkAvailability` returns false, the `mounts` operation returns the
Unavailable error and constructs no mount. -/
theorem checkAvailability_iff_chain (o : Snapshotter) (st : Store) :
    (∀ fuel key,
      checkAvailability o st fuel key = true ↔
        ∃ ch, snapChain st fuel key = some ch ∧ ∀ r ∈ ch, availSpec o r) ∧
    (∀ (fuel : Nat) (s : Snapshot) (checkKey : String), checkKey ≠ "" →
      checkAvailability o st fuel checkKey = false →
      mounts o st fuel s checkKey = .error .unavailable) := by
  constructor
  · intro fuel
    induction fuel with
    | zero =>
      intro key
      simp [checkAvailability, snapChain]
    | succ n ih =>
      intro key
      cases hg : getInfo st key with
      | none => simp [checkAvailability, snapChain, hg]
      | some info =>
        by_cases hpar : info.parent = ""
        · simp [checkAvailability, snapChain, hg, hpar, layerCheck_iff]
        · cases hch : snapChain st n info.parent with
          | none =>
            have hrec : checkAvailability o st n info.parent = false := by
              rw [Bool.eq_false_iff]
              intro hr
              rw [ih info.parent] at hr
              obtain ⟨ch, hc, -⟩ := hr
              rw [hch] at hc
              exact Option.noConfusion hc
            simp [checkAvailability, snapChain, hg, hpar, hrec, hch]
          | some ch' =>
            by_cases hrec : checkAvailability o st n info.parent = true
            · have hall : ∀ r ∈ ch', availSpec o r := by
                rw [ih info.parent] at hrec
                obtain ⟨ch'', hc, hall⟩ := hrec
                rw [hch] at hc
                obtain rfl : ch' = ch'' := Option.some.inj hc
                exact hall
              simp only [checkAvailability, snapChain, hg, hpar, hrec, hch]
              simp [layerCheck_iff, hall]
              exact fun _ => hall
            · have hrec' : checkAvailability o st n info.parent = false :=
                Bool.eq_false_iff.mpr hrec
              simp only [checkAvailability, snapChain, hg, hrec', hch]
              simp only [hpar]
              constructor
              · intro h
                exact absurd h (by simp [hpar, hrec'])
              · rintro ⟨ch, hc, hall⟩
                obtain rfl : ch = info :: ch' := Option.some.inj hc.symm
                exfalso
                refine hrec ((ih info.parent).mpr ⟨ch', hch, ?_⟩)
                intro r hr
                exact hall r (List.mem_cons_of_mem _ hr)
  · intro fuel s checkKey hne hfalse
    unfold mounts
    rw [if_pos ⟨hne, hfalse⟩]

/-- Witness for C2: a committed snapshot whose `filesystem.id` label does
not parse — the availability check fails and `mounts` surfaces
Unavailable. -/
theorem checkAvailability_iff_chain_witness :
    kBad ≠ "" ∧ checkAvailability oW stBad 1 kBad = false ∧
    mounts oW stBad 1 sW kBad = .error .unavailable :=
  ⟨by decide, by decide,
    (checkAvailability_iff_chain oW stBad).2 1 sW kBad (by decide) (by decide)⟩

/-! Helper lemmas for the Prepare fast path. -/

theorem lookupStr_setStr (ls : List (String × String)) (k v : String) :
    lookupStr (setStr ls k v) k = some v := by
  induction ls with
  | nil => simp [setStr, lookupStr]
  | cons p rest ih =>
    obtain ⟨a, b⟩ := p
    by_cases h : a = k
    · simp [setStr, lookupStr, h]
    · simp [setStr, lookupStr, h, ih]

theorem getInfo_cons_self (k : String) (r : SnapRecord) (st : Store) :
    getInfo ((k, r) :: st) k = some r := by
  simp [getInfo]

theorem firstMountIdx_none_iff (chain : List FSPlugin) (mp : String)
    (ls : List (String × String)) :
    firstMountIdx chain mp ls = none ↔ ∀ f ∈ chain, f.mount mp ls = false := by
  induction chain with
  | nil => simp [firstMountIdx]
  | cons f rest ih =>
    by_cases hf : f.mount mp ls
    · simp [firstMountIdx, hf]
    · simp [firstMountIdx, hf, ih]

theorem firstMountIdx_some_first (chain : List FSPlugin) (mp : String)
    (ls : List (String × String)) (i : Nat)
    (h : firstMountIdx chain mp ls = some i) :
    (∃ f, chain.get? i = some f ∧ f.mount mp ls = true) ∧
    (∀ j f, j < i → chain.get? j = some f → f.mount mp ls = false) := by
  induction chain generalizing i with
  | nil => simp [firstMountIdx] at h
  | cons f rest ih =>
    by_cases hf : f.mount mp ls
    · simp only [firstMountIdx] at h
      rw [if_pos hf] at h
      obtain rfl : (0 : Nat) = i := Option.some.inj h
      refine ⟨⟨f, rfl, hf⟩, ?_⟩
      intro j g hj hg
      exact absurd hj (by omega)
    · simp only [firstMountIdx] at h
      rw [if_neg hf, Option.map_eq_some'] at h
      obtain ⟨a, ha, hai⟩ := h
      subst hai
      obtain ⟨⟨g, hg, hgm⟩, hall⟩ := ih a ha
      refine ⟨⟨g, hg, hgm⟩, ?_⟩
      intro j g' hj hg'
      cases j with
      | zero =>
        have hg'' : f = g' := by simpa using hg'
        subst hg''
        exact Bool.eq_false_iff.mpr hf
      | succ k =>
        exact hall k g' (by omega) (by simpa using hg')

theorem createSnapshot_ok_inv (o : Snapshotter) (st : Store) (kind : SnapKind)
    (key parent : String) (labels : List (String × String)) (newId : String)
    (fuel : Nat) (st₁ : Store) (s : Snapshot) (m : List Mount)
    (h : createSnapshot o st kind key parent labels newId fuel = .ok (st₁, s, m)) :
    ∃ pids, st₁ = (key, ⟨newId, kind, parent, pids, labels, 0⟩) :: st ∧
      s = ⟨newId, kind, pids⟩ ∧ getInfo st key = none ∧
      mounts o st₁ fuel s parent = .ok m := by
  unfold createSnapshot at h
  by_cases hk : (getInfo st key).isSome
  · simp only [if_pos hk] at h
    exact absurd h (by simp)
  · simp only [if_neg hk] at h
    cases hp : parentIdsOf st parent with
    | none =>
      simp only [hp] at h
      exact absurd h (by simp)
    | some pids =>
      simp only [hp] at h
      cases hm : mounts o ((key, ⟨newId, kind, parent, pids, labels, 0⟩) :: st) fuel
          ⟨newId, kind, pids⟩ parent with
      | error e =>
        simp only [hm] at h
        exact absurd h (by simp)
      | ok m' =>
        simp only [hm, Except.ok.injEq, Prod.mk.injEq] at h
        obtain ⟨h1, h2, h3⟩ := h
        subst h1
        subst h2
        subst h3
        exact ⟨pids, rfl, rfl, Option.not_isSome_iff_eq_none.mp hk, hm⟩

theorem commitActive_ok (st : Store) (key name : String) (u : Int)
    (nl : List (String × String)) (st' : Store)
    (h : commitActive st key name u nl = .ok st') :
    ∃ r, getInfo st key = some r ∧ r.kind = .active ∧ getInfo st name = none ∧
      st' = (name, { r with kind := .committed, usage := u, labels := nl }) ::
              eraseKey st key ∧
      ∃ r', getInfo st' name = some r' ∧ r'.kind = .committed ∧ r'.labels = nl := by
  unfold commitActive at h
  cases hg : getInfo st key with
  | none =>
    simp only [hg] at h
    exact absurd h (by simp)
  | some r =>
    simp only [hg] at h
    by_cases h1 : r.kind ≠ .active
    · simp only [if_pos h1] at h
      exact absurd h (by simp)
    · simp only [if_neg h1] at h
      by_cases h2 : (getInfo st name).isSome
      · simp only [if_pos h2] at h
        exact absurd h (by simp)
      · simp only [if_neg h2, Except.ok.injEq] at h
        subst h
        push_neg at h1
        refine ⟨r, rfl, h1, Option.not_isSome_iff_eq_none.mp h2, rfl, ?_⟩
        exact ⟨_, getInfo_cons_self _ _ _, rfl, rfl⟩

theorem commit_ok (o : Snapshotter) (st : Store) (dU : String → Option Int)
    (name key : String) (nl : List (String × String)) (st' : Store)
    (h : commit o st dU name key nl = .ok st') :
    ∃ r', getInfo st' name = some r' ∧ r'.kind = .committed ∧ r'.labels = nl := by
  unfold commit at h
  cases hg : getInfo st key with
  | none =>
    simp only [hg] at h
    exact absurd h (by simp)
  | some info =>
    simp only [hg] at h
    cases hu : (if (lookupStr info.labels targetSnapshotLabel).isSome then some 0
                else dU (upperPath o info.id) : Option Int) with
    | none =>
      simp only [hu] at h
      exact absurd h (by simp)
    | some u =>
      simp only [hu] at h
      obtain ⟨r, -, -, -, -, r', hr1, hr2, hr3⟩ := commitActive_ok st key name u nl st' h
      exact ⟨r', hr1, hr2, hr3⟩

/-- C1: if `Prepare(key, parent, labels)` carries the remote-snapshot
target label and some filesystem plugin mounts the layer onto the
snapshot's `fs` directory (h3 names the first such index) and the commit
of the target succeeds, then Prepare stamps the committed snapshot's
labels with `filesystem.id` equal to the decimal index of the first plugin
that succeeded, commits it under the target name, and returns the
already-exists sentinel with no mounts. -/
theorem prepare_remote_commit (o : Snapshotter) (st : Store)
    (key parent target : String) (labels : List (String × String)) (newId : String)
    (diskUsage : String → Option Int) (fuel : Nat) (st₁ st₂ : Store)
    (s : Snapshot) (m : List Mount) (i : Nat)
    (h1 : createSnapshot o st .active key parent labels newId fuel = .ok (st₁, s, m))
    (h2 : lookupStr labels targetSnapshotLabel = some target)
    (h3 : firstMountIdx o.fsChain (upperPath o newId) labels = some i)
    (h4 : commit o st₁ diskUsage target key
            (setStr labels filesystemIDLabel (toString i)) = .ok st₂) :
    prepare o st key parent labels newId diskUsage fuel =
      (st₂, .error (.alreadyExists target)) ∧
    (∃ f, o.fsChain.get? i = some f ∧ f.mount (upperPath o newId) labels = true) ∧
    (∀ j f, j < i → o.fsChain.get? j = some f →
      f.mount (upperPath o newId) labels = false) ∧
    (∃ r, getInfo st₂ target = some r ∧ r.kind = .committed ∧
      lookupStr r.labels filesystemIDLabel = some (toString i)) := by
  obtain ⟨pids, hst₁, hs, hknone, hm⟩ :=
    createSnapshot_ok_inv o st .active key parent labels newId fuel st₁ s m h1
  have hgi : getInfo st₁ key = some ⟨newId, .active, parent, pids, labels, 0⟩ := by
    rw [hst₁]
    exact getInfo_cons_self _ _ _
  have hprs : prepareRemoteSnapshot o st₁ key labels = .ok i := by
    unfold prepareRemoteSnapshot
    simp only [hgi]
    simp only [h3]
  refine ⟨?_, ?_, ?_, ?_⟩
  · unfold prepare
    simp [h1, h2, hprs, h4]
  · exact (firstMountIdx_some_first _ _ _ i h3).1
  · exact (firstMountIdx_some_first _ _ _ i h3).2
  · obtain ⟨r', hr1, hr2, hr3⟩ := commit_ok o st₁ diskUsage target key _ st₂ h4
    exact ⟨r', hr1, hr2, by rw [hr3, lookupStr_setStr]⟩

/-- Witness for C1: one plugin that mounts successfully; Prepare commits
`c1` and returns already-exists. -/
theorem prepare_remote_commit_witness :
    lookupStr labelsW targetSnapshotLabel = some targetW ∧
    prepare oW [] keyW emptyStr labelsW newIdW dUW 1 =
      (stW2, .error (.alreadyExists targetW)) :=
  ⟨by decide,
    (prepare_remote_commit oW [] keyW emptyStr targetW labelsW newIdW dUW 1
      stW1 stW2 sW mWit 0 (by rfl) (by decide) (by decide) (by rfl)).1⟩

/-- C3: if Prepare carries the remote-snapshot target label and either
every filesystem plugin's Mount fails or the subsequent Commit of the
target fails, Prepare surfaces no failure: it returns the normal mounts of
the newly created Active snapshot with a nil error. -/
theorem prepare_fallback (o : Snapshotter) (st : Store)
    (key parent target : String) (labels : List (String × String)) (newId : String)
    (diskUsage : String → Option Int) (fuel : Nat) (st₁ : Store)
    (s : Snapshot) (m : List Mount)
    (h1 : createSnapshot o st .active key parent labels newId fuel = .ok (st₁, s, m))
    (h2 : lookupStr labels targetSnapshotLabel = some target) :
    ((∀ f ∈ o.fsChain, f.mount (upperPath o newId) labels = false) →
      prepare o st key parent labels newId diskUsage fuel = (st₁, .ok m)) ∧
    (∀ (i : Nat) (e : SnapErr),
      firstMountIdx o.fsChain (upperPath o newId) labels = some i →
      commit o st₁ diskUsage target key
        (setStr labels filesystemIDLabel (toString i)) = .error e →
      prepare o st key parent labels newId diskUsage fuel = (st₁, .ok m)) := by
  obtain ⟨pids, hst₁, hs, hknone, hm⟩ :=
    createSnapshot_ok_inv o st .active key parent labels newId fuel st₁ s m h1
  have hgi : getInfo st₁ key = some ⟨newId, .active, parent, pids, labels, 0⟩ := by
    rw [hst₁]
    exact getInfo_cons_self _ _ _
  constructor
  · intro hall
    have hnone : firstMountIdx o.fsChain (upperPath o newId) labels = none :=
      (firstMountIdx_none_iff _ _ _).mpr hall
    have hprs : prepareRemoteSnapshot o st₁ key labels = .error .mountFailed := by
      unfold prepareRemoteSnapshot
      simp only [hgi]
      simp only [hnone]
    unfold prepare
    simp [h1, h2, hprs]
  · intro i e h3 h4
    have hprs : prepareRemoteSnapshot o st₁ key labels = .ok i := by
      unfold prepareRemoteSnapshot
      simp only [hgi]
      simp only [h3]
    unfold prepare
    simp [h1, h2, hprs, h4]

/-- Witness for C3: the only plugin's Mount fails, Prepare falls back to
the snapshot's normal bind mounts with a nil error. -/
theorem prepare_fallback_witness :
    lookupStr labelsW targetSnapshotLabel = some targetW ∧
    prepare oFailW [] keyW emptyStr labelsW newIdW dUW 1 = (stW1, .ok mWit) :=
  ⟨by decide,
    (prepare_fallback oFailW [] keyW emptyStr targetW labelsW newIdW dUW 1
      stW1 sW mWit (by rfl) (by decide)).1
      (by
        intro f hf
        simp only [oFailW] at hf
        rw [List.mem_singleton] at hf
        subst hf
        rfl)⟩

/-- The `ForeachChild` fold of `OpenDir` computes the three filtered lists
of the listing pipeline. -/
theorem foldl_openDirStep (isRoot : Bool) (children : List (String × Toc))
    (acc : List DirEnt × List (String × Toc) × List String) :
    children.foldl (openDirStep isRoot) acc =
      (acc.1 ++ children.filterMap (normalSel isRoot),
       acc.2.1 ++ children.filterMap (whSel isRoot),
       acc.2.2 ++ children.filterMap (normalNameSel isRoot)) := by
  induction children generalizing acc with
  | nil => simp
  | cons bc rest ih =>
    rw [List.foldl_cons, ih]
    by_cases h1 : isRoot = true ∧ bc.1 = prefetchLandmark
    · simp [openDirStep, normalSel, whSel, normalNameSel, h1]
    · by_cases h2 : strStartsWith bc.1 whiteoutPre
      · by_cases h3 : bc.1 = whOpqDir
        · have hL : ¬ (whOpqDir = prefetchLandmark) := by decide
          have hS : strStartsWith whOpqDir whiteoutPre = true := by decide
          simp [openDirStep, normalSel, whSel, normalNameSel, h1, h2, h3, hL, hS]
        · simp [openDirStep, normalSel, whSel, normalNameSel, h1, h2, h3,
            List.append_assoc]
      · simp [openDirStep, normalSel, whSel, normalNameSel, h1, h2,
          List.append_assoc]

/-- C5 counterexample: a directory whose TOC children are exactly
`.wh..wh.foo` and `.wh.foo`.  The code hides both whiteouts but then
emits a synthetic character device named `.wh.foo` even though a sibling
named `.wh.foo` exists among the children, so the listing differs from
the claim's literal pipeline (which suppresses that entry). -/
theorem openDir_claim_cex :
    openDir false cexKids ≠ specOpenDirClaim false cexKids := by
  decide

/-- C5 (amended): `OpenDir` returns exactly the TOC children after the
claimed filters, with the synthetic whiteout test amended to "no sibling
*listed as a normal entry* named `X` exists" (the code consults the set of
normal entries it just listed, not all TOC children). -/
theorem openDir_amended (isRoot : Bool) (children : List (String × Toc)) :
    openDir isRoot children = specOpenDirAmended isRoot children := by
  have hcore := foldl_openDirStep isRoot children ([], [], [])
  simp only [List.nil_append] at hcore
  unfold openDir openDirCore specOpenDirAmended
  rw [hcore]
  cases isRoot <;> simp [List.append_assoc]

/-- C7 counterexample: a root directory whose TOC contains a child
`.wh..wh..opq`.  The node built at mount time never receives the opaque
flag, so `getxattr("trusted.overlay.opaque")` falls through (here: no
data) although the directory's TOC entry has the opaque child. -/
theorem getXAttr_root_cex :
    hasOpqChild tocOpqRootW = true ∧
    getXAttr (rootNode tocOpqRootW) opqXattr = none := by
  exact ⟨by decide, by decide⟩

/-- C7 (amended): for every directory node materialized by `Lookup`:
if the TOC entry has a child named `.wh..wh..opq`, `getxattr` of
`trusted.overlay.opaque` returns `"y"` and `listxattr` includes that name;
without such a child, `getxattr` of that name falls through to the TOC
entry's xattrs (no-data when absent); any other attribute passes through
unchanged; and the root node built at mount time never carries the opaque
flag, so on the root every attribute falls through to the TOC xattrs. -/
theorem getXAttr_lookup_semantics (n : FNode) (nm : String) (n' : FNode)
    (h : lookupNode n nm = .childNode n') :
    (hasOpqChild n'.e = true →
      getXAttr n' opqXattr = some opqXattrValue ∧ opqXattr ∈ listXAttr n') ∧
    (hasOpqChild n'.e = false →
      ∀ attr, getXAttr n' attr = lookupStr n'.e.xattrs attr) ∧
    (∀ attr, attr ≠ opqXattr → getXAttr n' attr = lookupStr n'.e.xattrs attr) ∧
    (∀ t attr, getXAttr (rootNode t) attr = lookupStr t.xattrs attr) := by
  have hopq : n'.opq = hasOpqChild n'.e := by
    unfold lookupNode at h
    by_cases c1 : n.e.name = "" ∧ nm = prefetchLandmark
    · rw [if_pos c1] at h
      exact absurd h (by simp)
    · rw [if_neg c1] at h
      by_cases c2 : strStartsWith nm whiteoutPre
      · rw [if_pos c2] at h
        exact absurd h (by simp)
      · rw [if_neg c2] at h
        by_cases c3 : n.e.name = "" ∧ nm = stateDirName
        · rw [if_pos c3] at h
          exact absurd h (by simp)
        · rw [if_neg c3] at h
          cases hc : n.e.lookupChild nm with
          | some ce =>
            simp only [hc] at h
            injection h with h'
            subst h'
            rfl
          | none =>
            simp only [hc] at h
            cases hw : n.e.lookupChild (whiteoutPre ++ nm) with
            | some wh =>
              simp only [hw] at h
              exact absurd h (by simp)
            | none =>
              simp only [hw] at h
              exact absurd h (by simp)
  refine ⟨?_, ?_, ?_, ?_⟩
  · intro hq
    constructor
    · simp [getXAttr, hopq, hq]
    · simp [listXAttr, hopq, hq]
  · intro hq attr
    simp [getXAttr, hopq, hq]
  · intro attr hne
    simp [getXAttr, hne]
  · intro t attr
    simp [getXAttr, rootNode]

/-- Witness for C7 (amended): looking up a directory `d` that contains
`.wh..wh..opq` yields an opaque node whose `getxattr` synthesizes `"y"`. -/
theorem getXAttr_lookup_semantics_witness :
    lookupNode (rootNode tocPW) dNameW = .childNode dNodeW ∧
    hasOpqChild dNodeW.e = true ∧
    getXAttr dNodeW opqXattr = some opqXattrValue :=
  ⟨rfl, by decide,
    ((getXAttr_lookup_semantics (rootNode tocPW) dNameW dNodeW rfl).1 (by decide)).1⟩
